import Mathlib

/-!
Verification of the icb-rs terminal chat client (`src/client/src/main.rs`)
against its natural-language specification.  The interactive event loop's
mutable state and its per-key transitions are embedded shallowly: the input
buffer is a list of characters, the two histories are lists of such strings,
and the per-key handling of the Rust `match input { ... }` becomes a total
Lean function returning a `StepResult` (where a Rust panic — an arithmetic
underflow on `usize`, an out-of-bounds `Vec` index, or a `String::insert`
off a character boundary — is the explicit `crash` outcome, and `/quit`'s
`exit(0)` is `quit`).
-/

namespace Icb

/-- Strings are modelled as lists of characters (a Rust `String`'s sequence
of `char`s); byte positions are recovered from per-character UTF-8 sizes. -/
abbrev Str := List Char

/-- Display width of one character.  Modelled from the external
`unicode-width` crate used by the client (`UnicodeWidthStr::width`):
control characters count 0 columns, East Asian wide/fullwidth ranges count
2, everything else 1.  Faithful for all characters appearing in this
development (printable ASCII and Latin-1). -/
def charWidth (c : Char) : Nat :=
  if c.val < 0x20 ∨ c.val = 0x7f then 0
  else if (0x1100 ≤ c.val ∧ c.val ≤ 0x115f) ∨ (0x2e80 ≤ c.val ∧ c.val ≤ 0xa4cf) ∨
      (0xac00 ≤ c.val ∧ c.val ≤ 0xd7a3) ∨ (0xf900 ≤ c.val ∧ c.val ≤ 0xfaff) ∨
      (0xfe30 ≤ c.val ∧ c.val ≤ 0xfe4f) ∨ (0xff00 ≤ c.val ∧ c.val ≤ 0xff60) ∨
      (0xffe0 ≤ c.val ∧ c.val ≤ 0xffe6) ∨ (0x20000 ≤ c.val ∧ c.val ≤ 0x2fffd) ∨
      (0x30000 ≤ c.val ∧ c.val ≤ 0x3fffd) then 2
  else 1

/-- `ui.input.width()` — display width of a string (sum of column widths). -/
def strWidth (s : Str) : Nat := (s.map charWidth).sum

/-- `ui.input.len()` — length of a string in UTF-8 bytes. -/
def byteLen (s : Str) : Nat := (s.map Char.utf8Size).sum

/-- ASCII whitespace recognised by `str::split_whitespace` (the Unicode
whitespace class restricted to the characters this development uses). -/
def isWhite (c : Char) : Bool :=
  c = ' ' ∨ c = '\t' ∨ c = '\n' ∨ c = '\r' ∨ c = '\x0b' ∨ c = '\x0c'

/-- Accumulator worker for `splitWhitespace`; `acc` holds the current
token's characters in reverse. -/
def splitWSAux : Str → Str → List Str
  | [], acc => if acc = [] then [] else [acc.reverse]
  | c :: t, acc =>
    if isWhite c then
      if acc = [] then splitWSAux t [] else acc.reverse :: splitWSAux t []
    else splitWSAux t (c :: acc)

/-- `str::split_whitespace().collect()` — split on whitespace, dropping
empty pieces. -/
def splitWhitespace (s : Str) : List Str := splitWSAux s []

/-- Index of the first occurrence of `p` as a contiguous sublist of `s`. -/
def findSub (p : Str) : Str → Option Nat
  | [] => if p = [] then some 0 else none
  | c :: t => if List.isPrefixOf p (c :: t) then some 0 else (findSub p t).map (· + 1)

/-- `str::replacen(p, "", 1)` — remove the first occurrence of `p` from
`s`; `s` unchanged when `p` does not occur. -/
def replacen1 (s p : Str) : Str :=
  match findSub p s with
  | none => s
  | some i => s.take i ++ s.drop (i + p.length)

/-- Number of leading characters of the string that together occupy exactly
`n` UTF-8 bytes, when byte position `n` falls on a character boundary
(`none` when `n` lands inside a character or past the end). -/
def boundaryPos : Str → Nat → Option Nat
  | _, 0 => some 0
  | [], _ + 1 => none
  | c :: t, n + 1 =>
    if c.utf8Size ≤ n + 1 then (boundaryPos t (n + 1 - c.utf8Size)).map (· + 1)
    else none

/-- `String::insert(i, c)` — insert `c` at byte index `i`; `none` models the
panic when `i` is past the end or not on a character boundary. -/
def insertAt (s : Str) (i : Nat) (c : Char) : Option Str :=
  (boundaryPos s i).map fun k => s.take k ++ c :: s.drop k

/-- Outbound commands (`icb::Command` variants used by the client). -/
inductive Command where
  | Open (text : Str)
  | Personal (recipient text : Str)
  | Beep (recipient : Str)
  | Name (newNickname : Str)
deriving DecidableEq

/-- Key events the client's `match input` distinguishes; `other` is the
catch-all `_` arm. -/
inductive Key where
  | backspace
  | ctrl (c : Char)
  | up
  | down
  | left
  | right
  | char (c : Char)
  | other
deriving DecidableEq

/-- The event loop's mutable UI state: `ui.input`, `ui.history`,
`ui.user_history`, `hist_offset`, `cursor_offset`, `client.nickname`. -/
structure ClientState where
  input : Str
  history : List Str
  userHistory : List Str
  histOffset : Nat
  cursorOffset : Nat
  nickname : Str
deriving DecidableEq

/-- Outcome of handling one key event: a new state plus the outbound
commands sent, or process exit (`/quit`), or a Rust panic. -/
inductive StepResult where
  | ok (s : ClientState) (sent : List Command)
  | quit
  | crash
deriving DecidableEq

/-- The non-slash arm of `Key::Char('\n')`: drain the buffer into an
`Open` command, echo it into both histories, clear the input. -/
def plainSend (ts : Str) (s : ClientState) : StepResult :=
  .ok { s with
        input := [],
        history := s.history ++ [ts ++ ": ".data ++ s.input],
        userHistory := s.userHistory ++ [s.input] }
    [.Open s.input]

/-- The `Key::Char('\n')` handler after `hist_offset`/`cursor_offset` have
been reset: classify the buffer by its first character and dispatch.
Mirrors the `match ui.input.chars().next()` and the else-if chain over
`input[0]` in `main.rs`. -/
def enter (ts : Str) (s : ClientState) : StepResult :=
  match s.input.head? with
  | some v =>
    if v = '/' then
      let toks := splitWhitespace s.input
      match toks.head? with
      | none => .crash
      | some cmd =>
        if cmd = "/quit".data then .quit
        else if (cmd = "/msg".data ∨ cmd = "/m".data) ∧ toks.length > 2 then
          match toks.get? 1 with
          | none => .crash
          | some recipient =>
            let msgText := replacen1 (replacen1 s.input cmd) ([' '] ++ recipient ++ [' '])
            .ok { s with
                  input := [],
                  userHistory := s.userHistory ++
                    [cmd ++ [' '] ++ recipient ++ [' '] ++ msgText],
                  history := s.history ++
                    [ts ++ ": -> ".data ++ recipient ++ ": ".data ++ msgText] }
              [.Personal recipient msgText]
        else if cmd = "/beep".data ∧ toks.length = 2 then
          match toks.get? 1 with
          | none => .crash
          | some recipient =>
            .ok { s with
                  input := [],
                  userHistory := s.userHistory ++ [cmd ++ [' '] ++ recipient],
                  history := s.history ++
                    [ts ++ ": *beep beep, ".data ++ recipient ++ "*".data] }
              [.Beep recipient]
        else if (cmd = "/name".data ∨ cmd = "/nick".data) ∧ toks.length = 2 then
          match toks.get? 1 with
          | none => .crash
          | some newname =>
            .ok { s with
                  input := [],
                  userHistory := s.userHistory ++ [cmd ++ [' '] ++ newname],
                  nickname := newname }
              [.Name newname]
        else .ok s []
    else plainSend ts s
  | none => plainSend ts s

/-- The `Key::Char(c)` handler for a printable character: append at the
end when the cursor is there, otherwise insert at byte index
`ui.input.len() - cursor_offset` (`crash` reproduces the usize-underflow /
non-boundary panics of the Rust original). -/
def insertKey (s : ClientState) (c : Char) : StepResult :=
  if s.cursorOffset = 0 then .ok { s with input := s.input ++ [c] } []
  else if s.cursorOffset > byteLen s.input then .crash
  else
    match insertAt s.input (byteLen s.input - s.cursorOffset) c with
    | some t => .ok { s with input := t } []
    | none => .crash

/-- Modelled from the spec: `packets::T_OPEN` lives in the `icb` library
crate, which is not under `src/`; the spec's §8 example fixes the Open
packet tag as `"1"` (`["1","alice","hi"]` is an Open tuple). -/
def T_OPEN : Char := '1'

/-- Modelled from the spec: `packets::T_PERSONAL` is in the `icb` library
crate, not under `src/`; the spec does not fix its value, so the ICB
protocol's personal-message tag is used.  The theorems below depend only
on the five tags being pairwise distinct. -/
def T_PERSONAL : Char := 'c'

/-- Modelled from the spec: `packets::T_PROTOCOL`, as for `T_PERSONAL`. -/
def T_PROTOCOL : Char := 'j'

/-- Modelled from the spec: `packets::T_STATUS`, as for `T_PERSONAL`. -/
def T_STATUS : Char := 'd'

/-- Modelled from the spec: `packets::T_BEEP`, as for `T_PERSONAL`. -/
def T_BEEP : Char := 'k'

/-- The categories of the first `T_STATUS` match arm in `main.rs`
(`"Arrive" | "Boot" | ... | "Warning"`). -/
def knownStatusCategories : List Str :=
  ["Arrive".data, "Boot".data, "Depart".data, "Help".data, "Name".data,
   "No-Beep".data, "Notify".data, "Sign-off".data, "Sign-on".data,
   "Status".data, "Topic".data, "Warning".data]

/-- One character of Rust's `{:?}` (Debug) formatting of a string:
quote, backslash and the common control characters are escaped.
(Approximation: other non-printable characters are left unescaped; no
theorem below exercises them.) -/
def debugEscape (c : Char) : Str :=
  if c = '"' then ['\\', '"']
  else if c = '\\' then ['\\', '\\']
  else if c = '\n' then ['\\', 'n']
  else if c = '\t' then ['\\', 't']
  else if c = '\r' then ['\\', 'r']
  else [c]

/-- Rust `{:?}` of a `String`. -/
def debugStr (s : Str) : Str := '"' :: (s.map debugEscape).flatten ++ ['"']

/-- Rust `{:?}` of a `Vec<String>`. -/
def debugVec (m : List Str) : Str :=
  '[' :: List.intercalate ", ".data (m.map debugStr) ++ [']']

/-- The inbound-message arm of the event loop (`client.msg_r.try_recv()`
handling): format the received field vector `m` into the line pushed onto
`ui.history`.  `none` models the panics of `m[0].chars().next().unwrap()`
and of the out-of-range `m[1]` / `m[2]` indexings. -/
def formatInbound (ts : Str) (m : List Str) : Option Str :=
  match m.head? with
  | none => none
  | some m0 =>
    match m0.head? with
    | none => none
    | some pt =>
      if pt = T_OPEN then
        match m.get? 1, m.get? 2 with
        | some m1, some m2 => some (ts ++ " <".data ++ m1 ++ "> ".data ++ m2)
        | _, _ => none
      else if pt = T_PERSONAL then
        match m.get? 1, m.get? 2 with
        | some m1, some m2 => some (ts ++ " **".data ++ m1 ++ "** ".data ++ m2)
        | _, _ => none
      else if pt = T_PROTOCOL then
        match m.get? 1, m.get? 2 with
        | some m1, some m2 => some ("==> Connected to ".data ++ m2 ++ " on ".data ++ m1)
        | _, _ => none
      else if pt = T_STATUS then
        match m.get? 1, m.get? 2 with
        | some m1, some m2 =>
          if m1 ∈ knownStatusCategories then
            some (ts ++ ": ".data ++ m2 ++ " ".data)
          else
            some ("=> Message '".data ++ m2 ++ "' received in unknown category '".data ++
              m1 ++ "'".data)
        | _, _ => none
      else if pt = T_BEEP then
        match m.get? 1 with
        | some m1 => some (ts ++ " *".data ++ m1 ++ " beeps you*".data)
        | none => none
      else
        some ("msg_r: ".data ++ ts ++ " read: ".data ++ debugVec m)

/-- One key event of the client's `match input { ... }`, with `ts` the
`timestamp()` string for this cycle. -/
def step (ts : Str) (k : Key) (s : ClientState) : StepResult :=
  match k with
  | .backspace => .ok { s with input := s.input.dropLast } []
  | .ctrl c =>
    if c = 'w' then .ok { s with input := [], cursorOffset := 0 } []
    else if c = 'a' then .ok { s with cursorOffset := strWidth s.input } []
    else if c = 'e' then .ok { s with cursorOffset := 0 } []
    else .ok s []
  | .up =>
    let histOffset := s.histOffset + 1
    let histLen := s.userHistory.length
    if histOffset > histLen ∨ histLen = 0 then
      .ok { s with histOffset := histOffset, cursorOffset := 0 } []
    else
      match s.userHistory.get? (histLen - histOffset) with
      | some e => .ok { s with histOffset := histOffset, cursorOffset := 0, input := e } []
      | none => .crash
  | .down =>
    let histLen := s.userHistory.length
    if s.histOffset = 0 ∨ histLen = 0 then
      .ok { s with cursorOffset := 0 } []
    else if s.histOffset = 1 then
      .ok { s with cursorOffset := 0, input := [] } []
    else
      let histOffset := s.histOffset - 1
      if histOffset > histLen then .crash
      else
        match s.userHistory.get? (histLen - histOffset) with
        | some e =>
          .ok { s with histOffset := histOffset, cursorOffset := 0, input := e } []
        | none => .crash
  | .left =>
    if s.cursorOffset = strWidth s.input then .ok s []
    else .ok { s with cursorOffset := s.cursorOffset + 1 } []
  | .right =>
    if s.cursorOffset = 0 then .ok s []
    else .ok { s with cursorOffset := s.cursorOffset - 1 } []
  | .char c =>
    if c = '\n' then enter ts { s with histOffset := 0, cursorOffset := 0 }
    else insertKey s c
  | .other => .ok s []

end Icb

namespace Icb

theorem strWidth_append (a b : Str) : strWidth (a ++ b) = strWidth a + strWidth b := by
  simp [strWidth]

theorem strWidth_insert (l : Str) (k : Nat) (c : Char) :
    strWidth l ≤ strWidth (l.take k ++ c :: l.drop k) := by
  have h1 : strWidth (l.take k ++ c :: l.drop k) =
      strWidth (l.take k) + (charWidth c + strWidth (l.drop k)) := by
    rw [strWidth_append]
    simp [strWidth]
  have h2 : strWidth (l.take k) + strWidth (l.drop k) = strWidth l := by
    rw [← strWidth_append, List.take_append_drop]
  omega

theorem byteLen_single (l : Str) (h : ∀ d ∈ l, d.utf8Size = 1) : byteLen l = l.length := by
  induction l with
  | nil => rfl
  | cons c t ih =>
    have hc : c.utf8Size = 1 := h c (List.mem_cons_self c t)
    have ht : byteLen t = t.length := ih (fun d hd => h d (List.mem_cons_of_mem c hd))
    show c.utf8Size + byteLen t = t.length + 1
    rw [hc, ht]
    omega

theorem boundaryPos_single (l : Str) (n : Nat) (h : ∀ d ∈ l, d.utf8Size = 1)
    (hn : n ≤ l.length) : boundaryPos l n = some n := by
  induction l generalizing n with
  | nil =>
    cases n with
    | zero => rfl
    | succ m => simp at hn
  | cons c t ih =>
    cases n with
    | zero => rfl
    | succ m =>
      have hc : c.utf8Size = 1 := h c (List.mem_cons_self c t)
      have hm : m ≤ t.length := by simpa using hn
      simp [boundaryPos, hc, ih m (fun d hd => h d (List.mem_cons_of_mem c hd)) hm]

theorem head_slash {s : ClientState} (hhead : s.input.head? = some '/') :
    ∃ t, s.input = '/' :: t := by
  cases hi : s.input with
  | nil =>
    rw [hi] at hhead
    exact absurd hhead (by simp)
  | cons a t =>
    rw [hi] at hhead
    simp only [List.head?_cons, Option.some.injEq] at hhead
    exact ⟨t, by rw [hhead]⟩

theorem enter_cursor {ts : Str} {s s' : ClientState} {out : List Command}
    (h : enter ts s = .ok s' out) : s'.cursorOffset = s.cursorOffset := by
  unfold enter plainSend at h
  dsimp only at h
  repeat' split at h
  all_goals (first | (cases h; rfl) | (cases h))

theorem insertKey_cursor_width {s : ClientState} {c : Char} {s' : ClientState}
    {out : List Command} (h : insertKey s c = .ok s' out) :
    s'.cursorOffset = s.cursorOffset ∧ strWidth s.input ≤ strWidth s'.input := by
  unfold insertKey at h
  repeat' split at h
  · cases h
    exact ⟨rfl, by simp [strWidth_append]⟩
  · cases h
  · cases h
    rename_i t heq
    refine ⟨rfl, ?_⟩
    obtain ⟨k, hk, rfl⟩ := Option.map_eq_some'.mp heq
    exact strWidth_insert _ _ _
  · cases h

/-- C1 (counterexample): the cursor invariant is not preserved by every key
event.  From the in-range state (InputBuffer `"a"`, cursorOffset 1) a
Backspace removes the final character but leaves the offset at 1, giving
cursorOffset 1 > 0 = displayWidth of the empty buffer. -/
theorem backspace_breaks_cursor_invariant :
    (⟨['a'], [], [], 0, 1, []⟩ : ClientState).cursorOffset ≤
      strWidth (⟨['a'], [], [], 0, 1, []⟩ : ClientState).input ∧
    step [] .backspace ⟨['a'], [], [], 0, 1, []⟩ = .ok ⟨[], [], [], 0, 1, []⟩ [] ∧
    ¬((⟨[], [], [], 0, 1, []⟩ : ClientState).cursorOffset ≤
      strWidth (⟨[], [], [], 0, 1, []⟩ : ClientState).input) := by decide

/-- C1 (amended): every single key-event transition except Backspace
(Ctrl+W, Ctrl+A, Ctrl+E, Up, Down, Left, Right, printable character,
Enter) that completes normally takes a state satisfying
0 ≤ cursorOffset ≤ displayWidth(InputBuffer) to a state satisfying the
same invariant. -/
theorem cursor_invariant_preserved (ts : Str) (k : Key) (s s' : ClientState)
    (out : List Command) (hk : k ≠ Key.backspace)
    (hinv : s.cursorOffset ≤ strWidth s.input)
    (h : step ts k s = .ok s' out) : s'.cursorOffset ≤ strWidth s'.input := by
  cases k with
  | backspace => exact absurd rfl hk
  | ctrl c =>
    simp only [step] at h
    split_ifs at h <;> (cases h; simp_all)
  | up =>
    simp only [step] at h
    repeat' split at h
    all_goals (first | (cases h; simp) | (cases h))
  | down =>
    simp only [step] at h
    repeat' split at h
    all_goals (first | (cases h; simp) | (cases h))
  | left =>
    simp only [step] at h
    split at h
    · cases h
      exact hinv
    · cases h
      rename_i hne
      exact Nat.succ_le_of_lt (Nat.lt_of_le_of_ne hinv hne)
  | right =>
    simp only [step] at h
    split at h
    · cases h
      exact hinv
    · cases h
      exact le_trans (Nat.sub_le _ _) hinv
  | char c =>
    simp only [step] at h
    split at h
    · have hc := enter_cursor h
      rw [hc]
      exact Nat.zero_le _
    · obtain ⟨h1, h2⟩ := insertKey_cursor_width h
      rw [h1]
      exact le_trans hinv h2
  | other =>
    simp only [step] at h
    cases h
    exact hinv

/-- C1 (witness): a Left key event from InputBuffer `"ab"` with
cursorOffset 1 reaches cursorOffset 2, still within the display width. -/
theorem cursor_invariant_preserved_witness :
    (⟨['a', 'b'], [], [], 0, 2, []⟩ : ClientState).cursorOffset ≤
      strWidth (⟨['a', 'b'], [], [], 0, 2, []⟩ : ClientState).input :=
  cursor_invariant_preserved [] .left ⟨['a', 'b'], [], [], 0, 1, []⟩
    ⟨['a', 'b'], [], [], 0, 2, []⟩ [] (by decide) (by decide) (by decide)

/-- C2 (counterexample): on InputBuffer `"abc"` with in-range
cursorOffset 2, Backspace yields `"ab"` — the final character is removed —
whereas removing the character at index displayWidth − cursorOffset = 1
would yield `"ac"`, and removing the character immediately before the
logical cursor position (index 0) would yield `"bc"`. -/
theorem backspace_ignores_cursor :
    step [] .backspace ⟨['a', 'b', 'c'], [], [], 0, 2, []⟩ =
      .ok ⟨['a', 'b'], [], [], 0, 2, []⟩ [] ∧
    strWidth ['a', 'b', 'c'] - 2 = 1 ∧
    List.take 1 ['a', 'b', 'c'] ++ List.drop 2 ['a', 'b', 'c'] = ['a', 'c'] ∧
    (['a', 'b'] : Str) ≠ ['a', 'c'] ∧
    (['a', 'b'] : Str) ≠ ['b', 'c'] := by decide

/-- C2 (amended): Backspace removes exactly the last character of the
InputBuffer, whatever the cursorOffset (so it only agrees with the
remove-before-cursor reading when cursorOffset = 0), and is a no-op on an
empty buffer; histories, offsets and outbound commands are untouched. -/
theorem backspace_removes_last (ts : Str) (s : ClientState) :
    (s.input = [] → step ts .backspace s = .ok s []) ∧
    ∀ t c, s.input = t ++ [c] → step ts .backspace s = .ok { s with input := t } [] := by
  obtain ⟨i, h1, h2, h3, h4, h5⟩ := s
  constructor
  · intro h
    subst h
    rfl
  · intro t c h
    subst h
    simp [step]

/-- C2 (witness): Backspace on `"ab"` with cursorOffset 1 leaves `"a"`. -/
theorem backspace_removes_last_witness :
    step [] .backspace ⟨['a', 'b'], [], [], 0, 1, []⟩ =
      .ok ⟨['a'], [], [], 0, 1, []⟩ [] :=
  (backspace_removes_last [] ⟨['a', 'b'], [], [], 0, 1, []⟩).2 ['a'] 'b' rfl

/-- C3 (code bug): with SubmissionHistory `["a"]`, the Up handler keeps its
increment even when the new offset is out of range — after three Up events
the offset is 3 > 1 = len, violating the claimed invariant — and the
following Down event indexes `user_history[1 − 2]`, which panics. -/
theorem up_overflow_crash :
    step [] .up ⟨[], [], [['a']], 0, 0, []⟩ = .ok ⟨['a'], [], [['a']], 1, 0, []⟩ [] ∧
    step [] .up ⟨['a'], [], [['a']], 1, 0, []⟩ = .ok ⟨['a'], [], [['a']], 2, 0, []⟩ [] ∧
    ¬((⟨['a'], [], [['a']], 2, 0, []⟩ : ClientState).histOffset ≤
      (⟨['a'], [], [['a']], 2, 0, []⟩ : ClientState).userHistory.length) ∧
    step [] .up ⟨['a'], [], [['a']], 2, 0, []⟩ = .ok ⟨['a'], [], [['a']], 3, 0, []⟩ [] ∧
    step [] .down ⟨['a'], [], [['a']], 3, 0, []⟩ = .crash := by decide

/-- C4: an Enter whose buffer starts with `/` and tokenizes to `/msg` (or
`/m`) plus at least two further tokens dispatches one Personal command
whose text is the original buffer with the first occurrence of the command
token removed and then the first occurrence of `" {recipient} "` removed;
the normalized command joins SubmissionHistory, the
`"{ts}: -> {recipient}: {text}"` line joins ConversationHistory, and the
InputBuffer is cleared. -/
theorem msg_dispatch (ts : Str) (s : ClientState) (cmd recipient : Str) (rest : List Str)
    (hhead : s.input.head? = some '/')
    (htoks : splitWhitespace s.input = cmd :: recipient :: rest)
    (hcmd : cmd = "/msg".data ∨ cmd = "/m".data)
    (hlen : rest ≠ []) :
    step ts (.char '\n') s =
      .ok { s with
            input := [],
            histOffset := 0,
            cursorOffset := 0,
            userHistory := s.userHistory ++
              [cmd ++ [' '] ++ recipient ++ [' '] ++
                replacen1 (replacen1 s.input cmd) ([' '] ++ recipient ++ [' '])],
            history := s.history ++
              [ts ++ ": -> ".data ++ recipient ++ ": ".data ++
                replacen1 (replacen1 s.input cmd) ([' '] ++ recipient ++ [' '])] }
        [.Personal recipient (replacen1 (replacen1 s.input cmd) ([' '] ++ recipient ++ [' ']))] := by
  obtain ⟨t, hi⟩ := head_slash hhead
  rw [hi] at htoks
  have hlen' : 0 < rest.length := List.length_pos.mpr hlen
  rcases hcmd with rfl | rfl
  · have hq : ("/msg".data : Str) ≠ "/quit".data := by decide
    simp [step, enter, hi, htoks, hq, hlen']
  · have hq : ("/m".data : Str) ≠ "/quit".data := by decide
    simp [step, enter, hi, htoks, hq, hlen']

/-- C4 (witness): `/msg alice hello there` sends
`Personal("alice", "hello there")`, records the SubmissionHistory entry
`"/msg alice hello there"` and the ConversationHistory entry
`"12:34: -> alice: hello there"`, and clears the buffer. -/
theorem msg_dispatch_witness :
    step "12:34".data (.char '\n') ⟨"/msg alice hello there".data, [], [], 0, 0, []⟩ =
      .ok ⟨[], ["12:34: -> alice: hello there".data], ["/msg alice hello there".data], 0, 0, []⟩
        [.Personal "alice".data "hello there".data] := by
  rw [msg_dispatch "12:34".data ⟨"/msg alice hello there".data, [], [], 0, 0, []⟩
    "/msg".data "alice".data ["hello".data, "there".data]
    (by decide) (by decide) (Or.inl rfl) (by decide)]
  decide

/-- C5: an Enter whose buffer starts with `/` but matches no recognized
command with correct arity sends nothing and leaves the InputBuffer and
both histories unchanged, while still resetting cursorOffset and
HistoryBrowseOffset to 0. -/
theorem unknown_command_noop (ts : Str) (s : ClientState) (cmd : Str) (rest : List Str)
    (hhead : s.input.head? = some '/')
    (htoks : splitWhitespace s.input = cmd :: rest)
    (hq : cmd ≠ "/quit".data)
    (hmsg : ¬((cmd = "/msg".data ∨ cmd = "/m".data) ∧ (cmd :: rest).length > 2))
    (hbeep : ¬(cmd = "/beep".data ∧ (cmd :: rest).length = 2))
    (hname : ¬((cmd = "/name".data ∨ cmd = "/nick".data) ∧ (cmd :: rest).length = 2)) :
    step ts (.char '\n') s = .ok { s with histOffset := 0, cursorOffset := 0 } [] := by
  obtain ⟨t, hi⟩ := head_slash hhead
  rw [hi] at htoks
  simp [step, enter, hi, htoks, hq]
  split_ifs with h1 h2 h3
  · exact absurd ⟨h1.1, by simpa using h1.2⟩ hmsg
  · exact absurd ⟨h2.1, by simp [h2.2]⟩ hbeep
  · exact absurd ⟨h3.1, by simp [h3.2]⟩ hname
  · rfl

/-- C5 (witness): `/beep` alone (one token) produces no command and leaves
the input line in place. -/
theorem unknown_command_noop_witness :
    step "12:34".data (.char '\n') ⟨"/beep".data, [], [], 3, 2, []⟩ =
      .ok ⟨"/beep".data, [], [], 0, 0, []⟩ [] := by
  rw [unknown_command_noop "12:34".data ⟨"/beep".data, [], [], 3, 2, []⟩ "/beep".data []
    (by decide) (by decide) (by decide) (by decide) (by decide) (by decide)]

/-- C6: from browse offset 0 with a non-empty SubmissionHistory, Up
followed immediately by Down leaves the InputBuffer empty — the Down event
at HistoryBrowseOffset 1 clears the buffer and keeps the offset at 1 —
rather than restoring the previously shown entry. -/
theorem up_then_down_clears (ts ts2 : Str) (s : ClientState)
    (h0 : s.histOffset = 0) (hne : s.userHistory ≠ []) :
    ∃ s1 : ClientState,
      step ts .up s = .ok s1 [] ∧ s1.histOffset = 1 ∧
      step ts2 .down s1 = .ok { s1 with input := [] } [] ∧
      ({ s1 with input := [] } : ClientState).histOffset = 1 ∧
      ({ s1 with input := [] } : ClientState).input = [] := by
  have hn : s.userHistory.length ≠ 0 := by
    simpa [List.length_eq_zero] using hne
  have hlt : s.userHistory.length - 1 < s.userHistory.length :=
    Nat.sub_lt (Nat.pos_of_ne_zero hn) Nat.one_pos
  refine ⟨{ s with
            histOffset := 1,
            cursorOffset := 0,
            input := s.userHistory.get ⟨s.userHistory.length - 1, hlt⟩ }, ?_, rfl, ?_, rfl, rfl⟩
  · simp [step, h0, hne, List.getElem?_eq_getElem, hlt, List.get_eq_getElem]
  · simp [step, hn]

/-- C6 (witness): with SubmissionHistory `["a"]` and live input `"x"`, Up
then Down ends with an empty buffer and browse offset 1. -/
theorem up_then_down_clears_witness :
    ∃ s1 : ClientState,
      step [] .up ⟨['x'], [], [['a']], 0, 0, []⟩ = .ok s1 [] ∧ s1.histOffset = 1 ∧
      step [] .down s1 = .ok { s1 with input := [] } [] ∧
      ({ s1 with input := [] } : ClientState).histOffset = 1 ∧
      ({ s1 with input := [] } : ClientState).input = [] :=
  up_then_down_clears [] [] ⟨['x'], [], [['a']], 0, 0, []⟩ rfl (by decide)

/-- C7: an Enter whose buffer does not start with `/` sends exactly one
Open command carrying the buffer text, appends exactly one
`"{timestamp}: {text}"` entry to ConversationHistory and the raw text to
SubmissionHistory, clears the InputBuffer and resets both offsets to 0. -/
theorem plain_message_dispatch (ts : Str) (s : ClientState)
    (h : s.input.head? ≠ some '/') :
    step ts (.char '\n') s =
      .ok { s with
            input := [],
            histOffset := 0,
            cursorOffset := 0,
            history := s.history ++ [ts ++ ": ".data ++ s.input],
            userHistory := s.userHistory ++ [s.input] }
        [.Open s.input] := by
  cases hi : s.input with
  | nil => simp [step, enter, plainSend, hi]
  | cons a t =>
    have ha : ¬(a = '/') := by
      intro hh
      exact h (by rw [hi, hh]; rfl)
    simp [step, enter, plainSend, hi, ha]

/-- C7 (witness): sending `"hi"` at 12:34 dispatches `Open("hi")` and
appends `"12:34: hi"` and `"hi"` to the two histories. -/
theorem plain_message_dispatch_witness :
    step "12:34".data (.char '\n') ⟨"hi".data, [], [], 1, 1, []⟩ =
      .ok ⟨[], ["12:34: hi".data], ["hi".data], 0, 0, []⟩ [.Open "hi".data] := by
  rw [plain_message_dispatch "12:34".data ⟨"hi".data, [], [], 1, 1, []⟩ (by decide)]
  decide

/-- C8 (counterexample): the known Status category set of the code has
twelve distinct members, not eleven as the claim states. -/
theorem known_status_categories_twelve :
    knownStatusCategories.length = 12 ∧ knownStatusCategories.Nodup ∧
    ¬(knownStatusCategories.length = 11) := by decide

/-- C8 (amended): an Open tuple `["1", sender, text]` formats to
`"{ts} <{sender}> {text}"`; a Status tuple whose category is in the
twelve-member known set formats to `"{ts}: {text} "` with a trailing
space; a Status tuple with any other category formats to the
unknown-category template. -/
theorem inbound_templates (ts sender text cat1 cat2 : Str)
    (h1 : cat1 ∈ knownStatusCategories)
    (h2 : cat2 ∉ knownStatusCategories) :
    formatInbound ts ["1".data, sender, text] =
      some (ts ++ " <".data ++ sender ++ "> ".data ++ text) ∧
    formatInbound ts [[T_STATUS], cat1, text] =
      some (ts ++ ": ".data ++ text ++ " ".data) ∧
    formatInbound ts [[T_STATUS], cat2, text] =
      some ("=> Message '".data ++ text ++ "' received in unknown category '".data ++
        cat2 ++ "'".data) := by
  refine ⟨?_, ?_, ?_⟩ <;>
    simp [formatInbound, T_OPEN, T_PERSONAL, T_PROTOCOL, T_STATUS, T_BEEP, h1, h2]

/-- C8 (witness): `["1","alice","hi"]` formats to `"12:34 <alice> hi"`; a
Status tuple with category `"Warning"` formats to `"12:34: hi "`; with
category `"Foo"` it formats to the unknown-category template. -/
theorem inbound_templates_witness :
    formatInbound "12:34".data ["1".data, "alice".data, "hi".data] =
      some "12:34 <alice> hi".data ∧
    formatInbound "12:34".data [[T_STATUS], "Warning".data, "hi".data] =
      some "12:34: hi ".data ∧
    formatInbound "12:34".data [[T_STATUS], "Foo".data, "hi".data] =
      some "=> Message 'hi' received in unknown category 'Foo'".data := by
  have h := inbound_templates "12:34".data "alice".data "hi".data "Warning".data "Foo".data
    (by decide) (by decide)
  exact ⟨h.1.trans (by decide), h.2.1.trans (by decide), h.2.2.trans (by decide)⟩

/-- C9 (counterexample): the insertion index is not always on a character
boundary.  Typing `¢` (two UTF-8 bytes, one display column), pressing
Ctrl+A (cursorOffset 1), then typing `x` computes insertion index
2 − 1 = 1, which is inside the `¢` character, and the insertion panics. -/
theorem multibyte_insert_crash :
    step [] (.char '¢') ⟨[], [], [], 0, 0, []⟩ = .ok ⟨['¢'], [], [], 0, 0, []⟩ [] ∧
    step [] (.ctrl 'a') ⟨['¢'], [], [], 0, 0, []⟩ = .ok ⟨['¢'], [], [], 0, 1, []⟩ [] ∧
    0 < (⟨['¢'], [], [], 0, 1, []⟩ : ClientState).cursorOffset ∧
    boundaryPos ['¢'] (byteLen ['¢'] - 1) = none ∧
    step [] (.char 'x') ⟨['¢'], [], [], 0, 1, []⟩ = .crash := by decide

/-- C9 (amended): when the InputBuffer consists solely of single-byte
characters and 0 < cursorOffset ≤ len(InputBuffer), the insertion index
len(InputBuffer) − cursorOffset is at most len(InputBuffer), falls on a
character boundary, and the insertion of a printable character succeeds. -/
theorem insert_single_byte_total (ts : Str) (s : ClientState) (c : Char)
    (hascii : ∀ d ∈ s.input, d.utf8Size = 1)
    (h0 : 0 < s.cursorOffset) (hle : s.cursorOffset ≤ byteLen s.input)
    (hnl : c ≠ '\n') :
    byteLen s.input - s.cursorOffset ≤ byteLen s.input ∧
    boundaryPos s.input (byteLen s.input - s.cursorOffset) =
      some (byteLen s.input - s.cursorOffset) ∧
    step ts (.char c) s =
      .ok { s with input := s.input.take (byteLen s.input - s.cursorOffset) ++
        c :: s.input.drop (byteLen s.input - s.cursorOffset) } [] := by
  have hbp : boundaryPos s.input (byteLen s.input - s.cursorOffset) =
      some (byteLen s.input - s.cursorOffset) := by
    apply boundaryPos_single _ _ hascii
    rw [← byteLen_single s.input hascii]
    exact Nat.sub_le _ _
  refine ⟨Nat.sub_le _ _, hbp, ?_⟩
  have hne : s.cursorOffset ≠ 0 := Nat.pos_iff_ne_zero.mp h0
  have hngt : ¬(byteLen s.input < s.cursorOffset) := not_lt.mpr hle
  simp [step, insertKey, hnl, hne, hngt, insertAt, hbp]

/-- C9 (witness): inserting `x` into the all-ASCII buffer `"ab"` at
cursorOffset 1 succeeds and yields `"axb"`. -/
theorem insert_single_byte_total_witness :
    byteLen ['a', 'b'] - 1 ≤ byteLen ['a', 'b'] ∧
    boundaryPos ['a', 'b'] (byteLen ['a', 'b'] - 1) = some (byteLen ['a', 'b'] - 1) ∧
    step [] (.char 'x') ⟨['a', 'b'], [], [], 0, 1, []⟩ =
      .ok ⟨['a', 'x', 'b'], [], [], 0, 1, []⟩ [] := by
  have h := insert_single_byte_total [] ⟨['a', 'b'], [], [], 0, 1, []⟩ 'x'
    (by decide) (by decide) (by decide) (by decide)
  exact ⟨h.1, h.2.1, h.2.2.trans (by decide)⟩

/-- C10: Enter on an empty InputBuffer is not suppressed — it sends
`Open("")`, appends one `"{timestamp}: "` entry to ConversationHistory
and the empty string to SubmissionHistory. -/
theorem empty_enter_sends_open (ts : Str) (s : ClientState) (h : s.input = []) :
    step ts (.char '\n') s =
      .ok { s with
            input := [],
            histOffset := 0,
            cursorOffset := 0,
            history := s.history ++ [ts ++ ": ".data],
            userHistory := s.userHistory ++ [[]] }
        [.Open []] := by
  simp [step, enter, plainSend, h]

/-- C10 (witness): Enter on an empty buffer at 12:34 sends `Open("")` and
appends `"12:34: "` and `""` to the histories. -/
theorem empty_enter_sends_open_witness :
    step "12:34".data (.char '\n') ⟨[], [], [], 2, 0, []⟩ =
      .ok ⟨[], ["12:34: ".data], [[]], 0, 0, []⟩ [.Open []] := by
  rw [empty_enter_sends_open "12:34".data ⟨[], [], [], 2, 0, []⟩ rfl]
  decide

end Icb
